import Mathlib

/-!
Shallow embedding of the `ameda` crate (`src/lib.rs`): a 2D cell grid
represented as a linear vector of `usize` indices, with precomputed edge /
middle index sets and eight-directional neighbor queries.

`usize` values are modeled as `Nat` together with explicit wrapping
(modulo `2 ^ 64`) at every arithmetic operation the Rust source performs,
matching Rust release-mode (wrapping) semantics on a 64-bit target.
-/

/-- The cardinality of the `usize` domain on the 64-bit targets the crate is
built for: `2 ^ 64`.  All scalar arithmetic in the embedding happens modulo
this constant. -/
def usizeCard : Nat := 18446744073709551616

/-- Wrapping `usize` addition. -/
def wadd (a b : Nat) : Nat := (a + b) % usizeCard

/-- Wrapping `usize` subtraction (for representable inputs `b < usizeCard`). -/
def wsub (a b : Nat) : Nat := (a + usizeCard - b) % usizeCard

/-- Wrapping `usize` multiplication. -/
def wmul (a b : Nat) : Nat := (a * b) % usizeCard

/-- The list of indices produced by Rust's `for i in a..b` iteration. -/
def rangeFromTo (a b : Nat) : List Nat := List.range' a (b - a)

/-- The `GridIndex` struct of `src/lib.rs`: dimensions plus the eagerly
computed corner indices and edge / middle index vectors. -/
structure GridIndex where
  grid_length : Nat
  grid_height : Nat
  total_indices : Nat
  top_left_corner : Nat
  top_right_corner : Nat
  bottom_left_corner : Nat
  bottom_right_corner : Nat
  left_column_indices : List Nat
  right_column_indices : List Nat
  top_row_indices : List Nat
  bottom_row_indices : List Nat
  middle_indices : List Nat

/-- `GridIndex::row_indices`: the row's cells, from `grid_length * row` up to
`grid_length * (row + 1) - 1` inclusive (all arithmetic wrapping). -/
def row_indices (grid_length row : Nat) : List Nat :=
  let start_index := wmul grid_length row
  let end_index := wsub (wmul grid_length (wadd row 1)) 1
  rangeFromTo start_index (wadd end_index 1)

/-- `GridIndex::column_indices`: for each `i in 0..grid_height` the value
`grid_length * i + column` (wrapping). -/
def column_indices (grid_length grid_height column : Nat) : List Nat :=
  (List.range grid_height).map (fun i => wadd (wmul grid_length i) column)

/-- `GridIndex::middle_indices`: every `i in 0..total_indices` contained in
none of the four edge vectors. -/
def middle_of (total : Nat) (lc rc tr br : List Nat) : List Nat :=
  (List.range total).filter
    (fun i => !lc.contains i && !rc.contains i && !tr.contains i && !br.contains i)

/-- The body of `GridIndex::new` once the dimension guard has passed: the
struct with all derived fields computed eagerly. -/
def mkGrid (grid_length grid_height : Nat) : GridIndex where
  grid_length := grid_length
  grid_height := grid_height
  total_indices := wmul grid_length grid_height
  top_left_corner := 0
  top_right_corner := wsub grid_length 1
  bottom_left_corner := wsub (wmul grid_length grid_height) grid_length
  bottom_right_corner := wsub (wmul grid_length grid_height) 1
  left_column_indices := column_indices grid_length grid_height 0
  right_column_indices := column_indices grid_length grid_height (wsub grid_length 1)
  top_row_indices := row_indices grid_length 0
  bottom_row_indices := row_indices grid_length (wsub grid_height 1)
  middle_indices :=
    middle_of (wmul grid_length grid_height)
      (column_indices grid_length grid_height 0)
      (column_indices grid_length grid_height (wsub grid_length 1))
      (row_indices grid_length 0)
      (row_indices grid_length (wsub grid_height 1))

/-- `GridIndex::new`: the guard is written exactly as in the source,
`x > 1 && y > 1 && x < 512 && x < 512` (the width bound is tested twice and
the height is never bounded). -/
def GridIndex.new (grid_length grid_height : Nat) : Option GridIndex :=
  if grid_length > 1 ∧ grid_height > 1 ∧ grid_length < 512 ∧ grid_length < 512 then
    some (mkGrid grid_length grid_height)
  else
    none

/-- `GridIndex::cell_count`. -/
def GridIndex.cell_count (g : GridIndex) : Nat := g.total_indices

/-- `GridIndex::row_cell_indexes`. -/
def GridIndex.row_cell_indexes (g : GridIndex) (row : Nat) : Option (List Nat) :=
  if row ≥ g.grid_height then none else some (row_indices g.grid_length row)

/-- `GridIndex::col_cell_indexes`. -/
def GridIndex.col_cell_indexes (g : GridIndex) (column : Nat) : Option (List Nat) :=
  if column ≥ g.grid_length then none
  else some (column_indices g.grid_length g.grid_height column)

/-- `GridIndex::neighbor_index`: string-dispatched computation of the blocking
edge vectors and the (eagerly computed) candidate neighbor value, then the
final range / membership check. -/
def GridIndex.neighbor_index (g : GridIndex) (src_index : Nat) (neighbor : String) :
    Option Nat :=
  let indices_to_check : List (List Nat) × Option Nat :=
    match neighbor with
    | "rt" => ([g.right_column_indices], some (wadd src_index 1))
    | "dr" => ([g.right_column_indices, g.bottom_row_indices],
               some (wadd (wadd src_index g.grid_length) 1))
    | "dn" => ([g.bottom_row_indices], some (wadd src_index g.grid_length))
    | "dl" => ([g.left_column_indices, g.bottom_row_indices],
               some (wsub (wadd src_index g.grid_length) 1))
    | "lt" => ([g.left_column_indices],
               if src_index ≠ 0 then some (wsub src_index 1) else none)
    | "ul" => ([g.left_column_indices, g.top_row_indices],
               if src_index < wadd g.grid_length 1 then none
               else some (wsub (wsub src_index g.grid_length) 1))
    | "up" => ([g.top_row_indices],
               if src_index < g.grid_length then none
               else some (wsub src_index g.grid_length))
    | "ur" => ([g.right_column_indices, g.top_row_indices],
               if src_index < g.grid_length then none
               else some (wadd (wsub src_index g.grid_length) 1))
    | _ => ([], none)
  if src_index < g.total_indices ∧
      ¬ indices_to_check.1.any (fun v => v.contains src_index) then
    indices_to_check.2
  else
    none

/-- `GridIndex::rt_i`. -/
def GridIndex.rt_i (g : GridIndex) (src_index : Nat) : Option Nat :=
  g.neighbor_index src_index ("rt")

/-- `GridIndex::dr_i`. -/
def GridIndex.dr_i (g : GridIndex) (src_index : Nat) : Option Nat :=
  g.neighbor_index src_index ("dr")

/-- `GridIndex::dn_i`. -/
def GridIndex.dn_i (g : GridIndex) (src_index : Nat) : Option Nat :=
  g.neighbor_index src_index ("dn")

/-- `GridIndex::dl_i`. -/
def GridIndex.dl_i (g : GridIndex) (src_index : Nat) : Option Nat :=
  g.neighbor_index src_index ("dl")

/-- `GridIndex::lt_i`. -/
def GridIndex.lt_i (g : GridIndex) (src_index : Nat) : Option Nat :=
  g.neighbor_index src_index ("lt")

/-- `GridIndex::ul_i`. -/
def GridIndex.ul_i (g : GridIndex) (src_index : Nat) : Option Nat :=
  g.neighbor_index src_index ("ul")

/-- `GridIndex::up_i`. -/
def GridIndex.up_i (g : GridIndex) (src_index : Nat) : Option Nat :=
  g.neighbor_index src_index ("up")

/-- `GridIndex::ur_i`. -/
def GridIndex.ur_i (g : GridIndex) (src_index : Nat) : Option Nat :=
  g.neighbor_index src_index ("ur")

/-! ### Basic facts about the wrapped arithmetic -/

theorem usizeCard_pos : 0 < usizeCard := by unfold usizeCard; omega

theorem wadd_eq {a b : Nat} (h : a + b < usizeCard) : wadd a b = a + b := by
  unfold wadd; exact Nat.mod_eq_of_lt h

theorem wsub_eq {a b : Nat} (hb : b ≤ a) (ha : a < usizeCard) : wsub a b = a - b := by
  unfold wsub usizeCard at *; omega

theorem wmul_lt (a b : Nat) : wmul a b < usizeCard := Nat.mod_lt _ usizeCard_pos

theorem wmul_eq {a b : Nat} (h : a * b < usizeCard) : wmul a b = a * b := by
  unfold wmul; exact Nat.mod_eq_of_lt h

/-! ### Inversion of the constructor guard -/

theorem new_eq_some {L H : Nat} {g : GridIndex} (h : GridIndex.new L H = some g) :
    2 ≤ L ∧ 2 ≤ H ∧ L < 512 ∧ g = mkGrid L H := by
  unfold GridIndex.new at h
  split at h
  · next hc =>
    obtain ⟨h1, h2, h3, -⟩ := hc
    simp only [Option.some.injEq] at h
    exact ⟨h1, h2, h3, h.symm⟩
  · exact absurd h (by simp)

theorem new_mk (L H : Nat) (h1 : 2 ≤ L) (h2 : 2 ≤ H) (h3 : L < 512) :
    GridIndex.new L H = some (mkGrid L H) := by
  unfold GridIndex.new
  rw [if_pos ⟨h1, h2, h3, h3⟩]

/-! ### Projections of `mkGrid` -/

theorem mkGrid_length (L H : Nat) : (mkGrid L H).grid_length = L := by
  simp only [mkGrid]

theorem mkGrid_height (L H : Nat) : (mkGrid L H).grid_height = H := by
  simp only [mkGrid]

theorem mkGrid_total (L H : Nat) : (mkGrid L H).total_indices = wmul L H := by
  simp only [mkGrid]

theorem mkGrid_top_left (L H : Nat) : (mkGrid L H).top_left_corner = 0 := by
  simp only [mkGrid]

theorem mkGrid_top_right (L H : Nat) : (mkGrid L H).top_right_corner = wsub L 1 := by
  simp only [mkGrid]

theorem mkGrid_bottom_left (L H : Nat) :
    (mkGrid L H).bottom_left_corner = wsub (wmul L H) L := by
  simp only [mkGrid]

theorem mkGrid_bottom_right (L H : Nat) :
    (mkGrid L H).bottom_right_corner = wsub (wmul L H) 1 := by
  simp only [mkGrid]

theorem mkGrid_top_row (L H : Nat) :
    (mkGrid L H).top_row_indices = row_indices L 0 := by
  simp only [mkGrid]

theorem mkGrid_bottom_row (L H : Nat) :
    (mkGrid L H).bottom_row_indices = row_indices L (wsub H 1) := by
  simp only [mkGrid]

theorem mkGrid_left_col (L H : Nat) :
    (mkGrid L H).left_column_indices = column_indices L H 0 := by
  simp only [mkGrid]

theorem mkGrid_right_col (L H : Nat) :
    (mkGrid L H).right_column_indices = column_indices L H (wsub L 1) := by
  simp only [mkGrid]

theorem mkGrid_middle (L H : Nat) :
    (mkGrid L H).middle_indices =
      middle_of (wmul L H) (column_indices L H 0) (column_indices L H (wsub L 1))
        (row_indices L 0) (row_indices L (wsub H 1)) := by
  simp only [mkGrid]

/-! ### The row and column vectors -/

/-- When the arithmetic does not wrap, `row_indices` is the plain interval of
length `grid_length` starting at `grid_length * row`. -/
theorem row_indices_eq (L r : Nat) (hL : 1 ≤ L) (hno : L * r + L < usizeCard) :
    row_indices L r = List.range' (L * r) L := by
  have hm : L * (r + 1) = L * r + L := by ring
  have hr1 : r + 1 ≤ L * r + L := hm ▸ Nat.le_mul_of_pos_left (r + 1) (by omega)
  have hnoC : L * r + L < 18446744073709551616 := hno
  have hstart : wmul L r = L * r := by
    unfold wmul usizeCard; omega
  have hupper : wadd (wsub (wmul L (wadd r 1)) 1) 1 = L * r + L := by
    unfold wadd wsub wmul usizeCard
    rw [Nat.mod_eq_of_lt (show r + 1 < 18446744073709551616 by omega), hm]
    omega
  simp only [row_indices, rangeFromTo]
  rw [hstart, hupper, Nat.add_sub_cancel_left]

/-- The top row is `[0 .. grid_length - 1]` for every representable width. -/
theorem row_indices_zero (L : Nat) (hL : 1 ≤ L) (hC : L < usizeCard) :
    row_indices L 0 = List.range' 0 L := by
  have := row_indices_eq L 0 hL (by omega)
  simpa using this

/-- The bottom row vector of any constructed grid: when the (wrapped) total is
at least `grid_length` it is the top `grid_length` indices below the total;
otherwise the iteration range is empty and so is the vector. -/
theorem bottom_row_split (L H : Nat) (hL2 : 2 ≤ L) (hL5 : L < 512) (hH2 : 2 ≤ H)
    (hHC : H < usizeCard) :
    (L ≤ wmul L H → row_indices L (wsub H 1) = List.range' (wmul L H - L) L)
    ∧ (wmul L H < L → row_indices L (wsub H 1) = []) := by
  have hHC' : H < 18446744073709551616 := hHC
  have hw1 : wsub H 1 = H - 1 := wsub_eq (by omega) hHC
  have hm : L * H = L * (H - 1) + L := by
    obtain ⟨h', rfl⟩ : ∃ h', H = h' + 1 := ⟨H - 1, by omega⟩
    rw [Nat.add_sub_cancel, Nat.mul_add, Nat.mul_one]
  have hP2 : 2 * L ≤ L * H := by
    calc 2 * L = L * 2 := by ring
    _ ≤ L * H := Nat.mul_le_mul_left L hH2
  have hupper : wadd (wsub (wmul L (wadd (H - 1) 1)) 1) 1 = wmul L H := by
    unfold wadd wsub wmul usizeCard
    rw [show H - 1 + 1 = H by omega]
    rw [Nat.mod_eq_of_lt (show H < 18446744073709551616 by omega)]
    omega
  constructor
  · intro hT
    have hstart : wmul L (H - 1) = wmul L H - L := by
      unfold wmul usizeCard at *
      omega
    simp only [row_indices, rangeFromTo]
    rw [hw1, hupper, hstart, Nat.sub_sub_self hT]
  · intro hT
    have hle : wmul L H ≤ wmul L (H - 1) := by
      unfold wmul usizeCard at *
      omega
    simp only [row_indices, rangeFromTo]
    rw [hw1, hupper, Nat.sub_eq_zero_of_le hle, List.range'_zero]


/-! ### Unfolding the eight neighbor queries

Each query is the final range / membership check of `neighbor_index` applied
to that direction's blocking vectors and candidate value.  The `..._eq`
lemmas restate the boolean vector scan as plain list membership. -/

theorem rt_i_eq (g : GridIndex) (src : Nat) :
    g.rt_i src =
      if src < g.total_indices ∧ src ∉ g.right_column_indices
      then some (wadd src 1) else none := by
  have h0 : g.rt_i src =
      if src < g.total_indices ∧
          ¬ ([g.right_column_indices].any fun v => v.contains src) = true
      then some (wadd src 1) else none := rfl
  rw [h0]
  refine if_congr ?_ rfl rfl
  simp

theorem dr_i_eq (g : GridIndex) (src : Nat) :
    g.dr_i src =
      if src < g.total_indices ∧ src ∉ g.right_column_indices ∧
          src ∉ g.bottom_row_indices
      then some (wadd (wadd src g.grid_length) 1) else none := by
  have h0 : g.dr_i src =
      if src < g.total_indices ∧
          ¬ ([g.right_column_indices, g.bottom_row_indices].any
              fun v => v.contains src) = true
      then some (wadd (wadd src g.grid_length) 1) else none := rfl
  rw [h0]
  refine if_congr ?_ rfl rfl
  simp [not_or, and_assoc]

theorem dn_i_eq (g : GridIndex) (src : Nat) :
    g.dn_i src =
      if src < g.total_indices ∧ src ∉ g.bottom_row_indices
      then some (wadd src g.grid_length) else none := by
  have h0 : g.dn_i src =
      if src < g.total_indices ∧
          ¬ ([g.bottom_row_indices].any fun v => v.contains src) = true
      then some (wadd src g.grid_length) else none := rfl
  rw [h0]
  refine if_congr ?_ rfl rfl
  simp

theorem dl_i_eq (g : GridIndex) (src : Nat) :
    g.dl_i src =
      if src < g.total_indices ∧ src ∉ g.left_column_indices ∧
          src ∉ g.bottom_row_indices
      then some (wsub (wadd src g.grid_length) 1) else none := by
  have h0 : g.dl_i src =
      if src < g.total_indices ∧
          ¬ ([g.left_column_indices, g.bottom_row_indices].any
              fun v => v.contains src) = true
      then some (wsub (wadd src g.grid_length) 1) else none := rfl
  rw [h0]
  refine if_congr ?_ rfl rfl
  simp [not_or, and_assoc]

theorem lt_i_eq (g : GridIndex) (src : Nat) :
    g.lt_i src =
      if src < g.total_indices ∧ src ∉ g.left_column_indices
      then (if src ≠ 0 then some (wsub src 1) else none) else none := by
  have h0 : g.lt_i src =
      if src < g.total_indices ∧
          ¬ ([g.left_column_indices].any fun v => v.contains src) = true
      then (if src ≠ 0 then some (wsub src 1) else none) else none := rfl
  rw [h0]
  refine if_congr ?_ rfl rfl
  simp

theorem ul_i_eq (g : GridIndex) (src : Nat) :
    g.ul_i src =
      if src < g.total_indices ∧ src ∉ g.left_column_indices ∧
          src ∉ g.top_row_indices
      then (if src < wadd g.grid_length 1 then none
            else some (wsub (wsub src g.grid_length) 1))
      else none := by
  have h0 : g.ul_i src =
      if src < g.total_indices ∧
          ¬ ([g.left_column_indices, g.top_row_indices].any
              fun v => v.contains src) = true
      then (if src < wadd g.grid_length 1 then none
            else some (wsub (wsub src g.grid_length) 1))
      else none := rfl
  rw [h0]
  refine if_congr ?_ rfl rfl
  simp [not_or, and_assoc]

theorem up_i_eq (g : GridIndex) (src : Nat) :
    g.up_i src =
      if src < g.total_indices ∧ src ∉ g.top_row_indices
      then (if src < g.grid_length then none
            else some (wsub src g.grid_length))
      else none := by
  have h0 : g.up_i src =
      if src < g.total_indices ∧
          ¬ ([g.top_row_indices].any fun v => v.contains src) = true
      then (if src < g.grid_length then none
            else some (wsub src g.grid_length))
      else none := rfl
  rw [h0]
  refine if_congr ?_ rfl rfl
  simp

theorem ur_i_eq (g : GridIndex) (src : Nat) :
    g.ur_i src =
      if src < g.total_indices ∧ src ∉ g.right_column_indices ∧
          src ∉ g.top_row_indices
      then (if src < g.grid_length then none
            else some (wadd (wsub src g.grid_length) 1))
      else none := by
  have h0 : g.ur_i src =
      if src < g.total_indices ∧
          ¬ ([g.right_column_indices, g.top_row_indices].any
              fun v => v.contains src) = true
      then (if src < g.grid_length then none
            else some (wadd (wsub src g.grid_length) 1))
      else none := rfl
  rw [h0]
  refine if_congr ?_ rfl rfl
  simp [not_or, and_assoc]

/-! ### Membership facts that hold for every constructed grid -/

theorem usizeCard_eq : usizeCard = 18446744073709551616 := rfl

theorem top_row_mkGrid (L H : Nat) (hL1 : 1 ≤ L) (hL5 : L < 512) :
    (mkGrid L H).top_row_indices = List.range' 0 L := by
  rw [mkGrid_top_row]
  have h := row_indices_eq L 0 hL1 (by rw [usizeCard_eq]; omega)
  rwa [Nat.mul_zero] at h

theorem mem_top_row_mkGrid (L H x : Nat) (hL1 : 1 ≤ L) (hL5 : L < 512) :
    x ∈ (mkGrid L H).top_row_indices ↔ x < L := by
  rw [top_row_mkGrid L H hL1 hL5, List.mem_range'_1]
  omega

theorem zero_mem_left_col (L H : Nat) (hH1 : 1 ≤ H) :
    0 ∈ (mkGrid L H).left_column_indices := by
  rw [mkGrid_left_col]
  unfold column_indices
  refine List.mem_map.mpr ⟨0, List.mem_range.mpr (by omega), ?_⟩
  unfold wadd wmul usizeCard
  omega

theorem length_mem_left_col (L H : Nat) (hH2 : 2 ≤ H) (hL5 : L < 512) :
    L ∈ (mkGrid L H).left_column_indices := by
  rw [mkGrid_left_col]
  unfold column_indices
  refine List.mem_map.mpr ⟨1, List.mem_range.mpr (by omega), ?_⟩
  unfold wadd wmul usizeCard
  omega

/-! ### Per-direction specifications over every constructed grid

These hold for every grid that the constructor guard admits, including the
ones whose `total_indices` wrapped around `usize`: the candidate arithmetic
of a direction never wraps whenever its blocking-set check passes, and the
extra underflow guards of the four upward/leftward directions are subsumed
by the membership checks. -/

theorem rt_i_spec (L H : Nat) (hL2 : 2 ≤ L) (hL5 : L < 512) (hH2 : 2 ≤ H)
    (hHC : H < usizeCard) (src : Nat) :
    (mkGrid L H).rt_i src =
      if src < (mkGrid L H).total_indices ∧ src ∉ (mkGrid L H).right_column_indices
      then some (src + 1) else none := by
  rw [rt_i_eq]
  by_cases hc :
      src < (mkGrid L H).total_indices ∧ src ∉ (mkGrid L H).right_column_indices
  · have h1 := hc.1
    rw [mkGrid_total] at h1
    have h2 := wmul_lt L H
    rw [if_pos hc, if_pos hc, wadd_eq (by omega)]
  · rw [if_neg hc, if_neg hc]

theorem dn_i_spec (L H : Nat) (hL2 : 2 ≤ L) (hL5 : L < 512) (hH2 : 2 ≤ H)
    (hHC : H < usizeCard) (src : Nat) :
    (mkGrid L H).dn_i src =
      if src < (mkGrid L H).total_indices ∧ src ∉ (mkGrid L H).bottom_row_indices
      then some (src + L) else none := by
  rw [dn_i_eq, mkGrid_length]
  by_cases hc :
      src < (mkGrid L H).total_indices ∧ src ∉ (mkGrid L H).bottom_row_indices
  · have h1 := hc.1
    have h2 := hc.2
    rw [mkGrid_total] at h1
    rw [mkGrid_bottom_row] at h2
    have hW := wmul_lt L H
    have hlt : src + L < usizeCard := by
      rcases le_or_lt L (wmul L H) with hT | hT
      · have hbr := (bottom_row_split L H hL2 hL5 hH2 hHC).1 hT
        rw [hbr, List.mem_range'_1] at h2
        omega
      · rw [usizeCard_eq] at *
        omega
    rw [if_pos hc, if_pos hc, wadd_eq hlt]
  · rw [if_neg hc, if_neg hc]

theorem dr_i_spec (L H : Nat) (hL2 : 2 ≤ L) (hL5 : L < 512) (hH2 : 2 ≤ H)
    (hHC : H < usizeCard) (src : Nat) :
    (mkGrid L H).dr_i src =
      if src < (mkGrid L H).total_indices ∧
          src ∉ (mkGrid L H).right_column_indices ∧
          src ∉ (mkGrid L H).bottom_row_indices
      then some (src + L + 1) else none := by
  rw [dr_i_eq, mkGrid_length]
  by_cases hc :
      src < (mkGrid L H).total_indices ∧
        src ∉ (mkGrid L H).right_column_indices ∧
        src ∉ (mkGrid L H).bottom_row_indices
  · have h1 := hc.1
    have h2 := hc.2.2
    rw [mkGrid_total] at h1
    rw [mkGrid_bottom_row] at h2
    have hW := wmul_lt L H
    have hlt : src + L + 1 < usizeCard := by
      rcases le_or_lt L (wmul L H) with hT | hT
      · have hbr := (bottom_row_split L H hL2 hL5 hH2 hHC).1 hT
        rw [hbr, List.mem_range'_1] at h2
        omega
      · rw [usizeCard_eq] at *
        omega
    rw [if_pos hc, if_pos hc, wadd_eq (show src + L < usizeCard by omega),
      wadd_eq (show src + L + 1 < usizeCard from hlt)]
  · rw [if_neg hc, if_neg hc]

theorem dl_i_spec (L H : Nat) (hL2 : 2 ≤ L) (hL5 : L < 512) (hH2 : 2 ≤ H)
    (hHC : H < usizeCard) (src : Nat) :
    (mkGrid L H).dl_i src =
      if src < (mkGrid L H).total_indices ∧
          src ∉ (mkGrid L H).left_column_indices ∧
          src ∉ (mkGrid L H).bottom_row_indices
      then some (src + L - 1) else none := by
  rw [dl_i_eq, mkGrid_length]
  by_cases hc :
      src < (mkGrid L H).total_indices ∧
        src ∉ (mkGrid L H).left_column_indices ∧
        src ∉ (mkGrid L H).bottom_row_indices
  · have h1 := hc.1
    have h2 := hc.2.2
    rw [mkGrid_total] at h1
    rw [mkGrid_bottom_row] at h2
    have hW := wmul_lt L H
    have hlt : src + L < usizeCard := by
      rcases le_or_lt L (wmul L H) with hT | hT
      · have hbr := (bottom_row_split L H hL2 hL5 hH2 hHC).1 hT
        rw [hbr, List.mem_range'_1] at h2
        omega
      · rw [usizeCard_eq] at *
        omega
    rw [if_pos hc, if_pos hc, wadd_eq (show src + L < usizeCard from hlt),
      wsub_eq (show 1 ≤ src + L by omega) (show src + L < usizeCard from hlt)]
  · rw [if_neg hc, if_neg hc]

theorem lt_i_spec (L H : Nat) (hL2 : 2 ≤ L) (hL5 : L < 512) (hH2 : 2 ≤ H)
    (hHC : H < usizeCard) (src : Nat) :
    (mkGrid L H).lt_i src =
      if src < (mkGrid L H).total_indices ∧ src ∉ (mkGrid L H).left_column_indices
      then some (src - 1) else none := by
  rw [lt_i_eq]
  by_cases hc :
      src < (mkGrid L H).total_indices ∧ src ∉ (mkGrid L H).left_column_indices
  · have h1 := hc.1
    rw [mkGrid_total] at h1
    have hW := wmul_lt L H
    have h0 : src ≠ 0 := by
      intro h
      exact hc.2 (h ▸ zero_mem_left_col L H (by omega))
    rw [if_pos hc, if_pos hc, if_pos h0,
      wsub_eq (show 1 ≤ src by omega) (show src < usizeCard by omega)]
  · rw [if_neg hc, if_neg hc]

theorem up_i_spec (L H : Nat) (hL2 : 2 ≤ L) (hL5 : L < 512) (hH2 : 2 ≤ H)
    (hHC : H < usizeCard) (src : Nat) :
    (mkGrid L H).up_i src =
      if src < (mkGrid L H).total_indices ∧ src ∉ (mkGrid L H).top_row_indices
      then some (src - L) else none := by
  rw [up_i_eq, mkGrid_length]
  by_cases hc :
      src < (mkGrid L H).total_indices ∧ src ∉ (mkGrid L H).top_row_indices
  · have h1 := hc.1
    rw [mkGrid_total] at h1
    have hW := wmul_lt L H
    have hL : L ≤ src := by
      by_contra h
      exact hc.2 ((mem_top_row_mkGrid L H src (by omega) hL5).mpr (by omega))
    rw [if_pos hc, if_pos hc, if_neg (show ¬ src < L by omega),
      wsub_eq (show L ≤ src from hL) (show src < usizeCard by omega)]
  · rw [if_neg hc, if_neg hc]

theorem ul_i_spec (L H : Nat) (hL2 : 2 ≤ L) (hL5 : L < 512) (hH2 : 2 ≤ H)
    (hHC : H < usizeCard) (src : Nat) :
    (mkGrid L H).ul_i src =
      if src < (mkGrid L H).total_indices ∧
          src ∉ (mkGrid L H).left_column_indices ∧
          src ∉ (mkGrid L H).top_row_indices
      then some (src - L - 1) else none := by
  rw [ul_i_eq, mkGrid_length]
  by_cases hc :
      src < (mkGrid L H).total_indices ∧
        src ∉ (mkGrid L H).left_column_indices ∧
        src ∉ (mkGrid L H).top_row_indices
  · have h1 := hc.1
    rw [mkGrid_total] at h1
    have hW := wmul_lt L H
    have hL : L ≤ src := by
      by_contra h
      exact hc.2.2 ((mem_top_row_mkGrid L H src (by omega) hL5).mpr (by omega))
    have hne : src ≠ L := by
      intro h
      exact hc.2.1 (h ▸ length_mem_left_col L H hH2 hL5)
    have hadd : wadd L 1 = L + 1 := wadd_eq (by rw [usizeCard_eq]; omega)
    rw [if_pos hc, if_pos hc, hadd, if_neg (show ¬ src < L + 1 by omega),
      wsub_eq (show L ≤ src from hL) (show src < usizeCard by omega),
      wsub_eq (show 1 ≤ src - L by omega) (show src - L < usizeCard by omega)]
  · rw [if_neg hc, if_neg hc]

theorem ur_i_spec (L H : Nat) (hL2 : 2 ≤ L) (hL5 : L < 512) (hH2 : 2 ≤ H)
    (hHC : H < usizeCard) (src : Nat) :
    (mkGrid L H).ur_i src =
      if src < (mkGrid L H).total_indices ∧
          src ∉ (mkGrid L H).right_column_indices ∧
          src ∉ (mkGrid L H).top_row_indices
      then some (src - L + 1) else none := by
  rw [ur_i_eq, mkGrid_length]
  by_cases hc :
      src < (mkGrid L H).total_indices ∧
        src ∉ (mkGrid L H).right_column_indices ∧
        src ∉ (mkGrid L H).top_row_indices
  · have h1 := hc.1
    rw [mkGrid_total] at h1
    have hW := wmul_lt L H
    have hL : L ≤ src := by
      by_contra h
      exact hc.2.2 ((mem_top_row_mkGrid L H src (by omega) hL5).mpr (by omega))
    rw [if_pos hc, if_pos hc, if_neg (show ¬ src < L by omega),
      wsub_eq (show L ≤ src from hL) (show src < usizeCard by omega),
      wadd_eq (show src - L + 1 < usizeCard by omega)]
  · rw [if_neg hc, if_neg hc]

/-! ### Exact characterizations when the cell count does not overflow -/

theorem mul_pred (L H : Nat) (hH1 : 1 ≤ H) : L * H = L * (H - 1) + L := by
  obtain ⟨h', rfl⟩ : ∃ h', H = h' + 1 := ⟨H - 1, by omega⟩
  rw [Nat.add_sub_cancel, Nat.mul_add, Nat.mul_one]

theorem height_lt_of_no_overflow (L H : Nat) (hL2 : 2 ≤ L) (hH1 : 1 ≤ H)
    (hP : L * H < usizeCard) : H < usizeCard := by
  have h := Nat.le_mul_of_pos_left H (show 0 < L by omega)
  omega

theorem total_mkGrid (L H : Nat) (hP : L * H < usizeCard) :
    (mkGrid L H).total_indices = L * H := by
  rw [mkGrid_total, wmul_eq hP]

theorem bottom_row_mkGrid (L H : Nat) (hL2 : 2 ≤ L) (hH1 : 1 ≤ H)
    (hP : L * H < usizeCard) (hHC : H < usizeCard) :
    (mkGrid L H).bottom_row_indices = List.range' (L * H - L) L := by
  rw [mkGrid_bottom_row, wsub_eq (show 1 ≤ H from hH1) hHC]
  have hm := mul_pred L H hH1
  have h := row_indices_eq L (H - 1) (by omega) (by omega)
  rw [h, show L * (H - 1) = L * H - L by omega]

theorem left_col_mkGrid (L H : Nat) (hL1 : 1 ≤ L) (hP : L * H < usizeCard) :
    (mkGrid L H).left_column_indices = (List.range H).map (fun i => L * i) := by
  rw [mkGrid_left_col]
  unfold column_indices
  refine List.map_congr_left ?_
  intro i hi
  rw [List.mem_range] at hi
  have h1 : L * (i + 1) ≤ L * H := Nat.mul_le_mul_left L (by omega)
  have h2 : L * (i + 1) = L * i + L := by ring
  unfold wadd wmul usizeCard at *
  omega

theorem right_col_mkGrid (L H : Nat) (hL1 : 1 ≤ L) (hL5 : L < 512)
    (hP : L * H < usizeCard) :
    (mkGrid L H).right_column_indices =
      (List.range H).map (fun i => L * i + (L - 1)) := by
  rw [mkGrid_right_col, wsub_eq (show 1 ≤ L from hL1) (by rw [usizeCard_eq]; omega)]
  unfold column_indices
  refine List.map_congr_left ?_
  intro i hi
  rw [List.mem_range] at hi
  have h1 : L * (i + 1) ≤ L * H := Nat.mul_le_mul_left L (by omega)
  have h2 : L * (i + 1) = L * i + L := by ring
  unfold wadd wmul usizeCard at *
  omega

theorem mem_bottom_row_mkGrid (L H x : Nat) (hL2 : 2 ≤ L) (hH1 : 1 ≤ H)
    (hP : L * H < usizeCard) (hHC : H < usizeCard) :
    x ∈ (mkGrid L H).bottom_row_indices ↔ L * H - L ≤ x ∧ x < L * H := by
  rw [bottom_row_mkGrid L H hL2 hH1 hP hHC, List.mem_range'_1]
  have h := Nat.le_mul_of_pos_right L (show 0 < H by omega)
  omega

theorem mem_left_col_mkGrid (L H x : Nat) (hL1 : 1 ≤ L) (hP : L * H < usizeCard)
    (hx : x < L * H) :
    x ∈ (mkGrid L H).left_column_indices ↔ x % L = 0 := by
  rw [left_col_mkGrid L H hL1 hP]
  simp only [List.mem_map, List.mem_range]
  constructor
  · rintro ⟨i, hi, rfl⟩
    exact Nat.mul_mod_right L i
  · intro h0
    have hd := Nat.div_add_mod x L
    refine ⟨x / L, ?_, by omega⟩
    rw [Nat.div_lt_iff_lt_mul (show 0 < L by omega)]
    calc x < L * H := hx
    _ = H * L := by ring

theorem mem_right_col_mkGrid (L H x : Nat) (hL1 : 1 ≤ L) (hL5 : L < 512)
    (hP : L * H < usizeCard) (hx : x < L * H) :
    x ∈ (mkGrid L H).right_column_indices ↔ x % L = L - 1 := by
  rw [right_col_mkGrid L H hL1 hL5 hP]
  simp only [List.mem_map, List.mem_range]
  constructor
  · rintro ⟨i, hi, rfl⟩
    rw [Nat.mul_add_mod]
    exact Nat.mod_eq_of_lt (by omega)
  · intro h0
    have hd := Nat.div_add_mod x L
    refine ⟨x / L, ?_, by omega⟩
    rw [Nat.div_lt_iff_lt_mul (show 0 < L by omega)]
    calc x < L * H := hx
    _ = H * L := by ring

theorem mem_middle_of (total x : Nat) (lc rc tr br : List Nat) :
    x ∈ middle_of total lc rc tr br ↔
      x < total ∧ x ∉ lc ∧ x ∉ rc ∧ x ∉ tr ∧ x ∉ br := by
  unfold middle_of
  simp [List.mem_filter, List.mem_range, and_assoc]

/-! ### Claim theorems -/

/-- C2: `GridIndex::new` returns a grid exactly when `grid_length > 1`,
`grid_height > 1` and `grid_length < 512`; the height has no upper bound and
any violation yields `none` (nothing partially constructed, the result being
an `Option`).  In particular `new 8 8` has cell count 64, `new 5 3` has cell
count 15, and `new 1 10` and `new 550 440` are both `none`. -/
theorem c2_constructor_guard :
    (∀ L H : Nat, (GridIndex.new L H).isSome ↔ (1 < L ∧ 1 < H ∧ L < 512))
    ∧ Option.map GridIndex.cell_count (GridIndex.new 8 8) = some 64
    ∧ Option.map GridIndex.cell_count (GridIndex.new 5 3) = some 15
    ∧ GridIndex.new 1 10 = none
    ∧ GridIndex.new 550 440 = none := by
  refine ⟨?_, rfl, rfl, rfl, rfl⟩
  intro L H
  unfold GridIndex.new
  split
  · next hc =>
    simp only [Option.isSome_some]
    exact iff_of_true (by trivial) ⟨hc.1, hc.2.1, hc.2.2.1⟩
  · next hc =>
    constructor
    · intro h
      simp at h
    · intro hcon
      exact absurd ⟨hcon.1, hcon.2.1, hcon.2.2, hcon.2.2⟩ hc

theorem cell_count_eq (g : GridIndex) : g.cell_count = g.total_indices := rfl

/-- C8 (amended): for every constructed grid the stored `total_indices`
(returned by `cell_count`) is `grid_length * grid_height` reduced modulo
`2 ^ 64`; it equals the exact product precisely on the inputs where that
product fits in `usize`. -/
theorem c8_cell_count (L H : Nat) (g : GridIndex)
    (hg : GridIndex.new L H = some g) :
    g.cell_count = (L * H) % usizeCard
    ∧ (L * H < usizeCard → g.cell_count = L * H) := by
  obtain ⟨hL2, hH2, hL5, rfl⟩ := new_eq_some hg
  rw [cell_count_eq, mkGrid_total]
  constructor
  · unfold wmul
    rfl
  · intro h
    exact wmul_eq h

theorem c8_cell_count_witness : (mkGrid 5 3).cell_count = 5 * 3 :=
  (c8_cell_count 5 3 (mkGrid 5 3) rfl).2 (by decide)

/-- C8 counterexample: on the 64-bit `usize` model, `new 2 (2 ^ 63)` passes
the guard (the height is unbounded) and the stored cell count is the wrapped
product `0`, not the exact product `2 ^ 64`. -/
theorem c8_counterexample :
    ¬ (∀ (L H : Nat) (g : GridIndex), GridIndex.new L H = some g →
        g.cell_count = L * H) := by
  intro h
  have hb := h 2 9223372036854775808 (mkGrid 2 9223372036854775808) rfl
  rw [show (mkGrid 2 9223372036854775808).cell_count = 0 from rfl] at hb
  omega

/-- C1: for every constructed grid, each of the eight directional queries
returns `none` exactly when the source index is outside `[0, total_indices)`
or belongs to one of that direction's blocking edge sets, and otherwise
returns exactly the source plus that direction's fixed offset. -/
theorem c1_neighbor_rule (L H : Nat) (g : GridIndex)
    (hg : GridIndex.new L H = some g) (hHC : H < usizeCard) (src : Nat) :
    (g.rt_i src =
      if src < g.total_indices ∧ src ∉ g.right_column_indices
      then some (src + 1) else none)
    ∧ (g.dr_i src =
      if src < g.total_indices ∧ src ∉ g.right_column_indices ∧
          src ∉ g.bottom_row_indices
      then some (src + g.grid_length + 1) else none)
    ∧ (g.dn_i src =
      if src < g.total_indices ∧ src ∉ g.bottom_row_indices
      then some (src + g.grid_length) else none)
    ∧ (g.dl_i src =
      if src < g.total_indices ∧ src ∉ g.left_column_indices ∧
          src ∉ g.bottom_row_indices
      then some (src + g.grid_length - 1) else none)
    ∧ (g.lt_i src =
      if src < g.total_indices ∧ src ∉ g.left_column_indices
      then some (src - 1) else none)
    ∧ (g.ul_i src =
      if src < g.total_indices ∧ src ∉ g.left_column_indices ∧
          src ∉ g.top_row_indices
      then some (src - g.grid_length - 1) else none)
    ∧ (g.up_i src =
      if src < g.total_indices ∧ src ∉ g.top_row_indices
      then some (src - g.grid_length) else none)
    ∧ (g.ur_i src =
      if src < g.total_indices ∧ src ∉ g.right_column_indices ∧
          src ∉ g.top_row_indices
      then some (src - g.grid_length + 1) else none) := by
  obtain ⟨hL2, hH2, hL5, rfl⟩ := new_eq_some hg
  rw [mkGrid_length]
  exact ⟨rt_i_spec L H hL2 hL5 hH2 hHC src, dr_i_spec L H hL2 hL5 hH2 hHC src,
    dn_i_spec L H hL2 hL5 hH2 hHC src, dl_i_spec L H hL2 hL5 hH2 hHC src,
    lt_i_spec L H hL2 hL5 hH2 hHC src, ul_i_spec L H hL2 hL5 hH2 hHC src,
    up_i_spec L H hL2 hL5 hH2 hHC src, ur_i_spec L H hL2 hL5 hH2 hHC src⟩

theorem c1_neighbor_rule_witness : (mkGrid 8 8).rt_i 9 = some 10 := by
  have h := (c1_neighbor_rule 8 8 (mkGrid 8 8) rfl (by decide) 9).1
  rw [h, if_pos (show 9 < (mkGrid 8 8).total_indices ∧
    9 ∉ (mkGrid 8 8).right_column_indices by decide)]

/-- C5: every index in the middle (interior) set has all eight neighbors, and
each equals the source plus or minus that direction's fixed offset. -/
theorem c5_interior_neighbors (L H : Nat) (g : GridIndex)
    (hg : GridIndex.new L H = some g) (hHC : H < usizeCard) (src : Nat)
    (hmid : src ∈ g.middle_indices) :
    g.rt_i src = some (src + 1)
    ∧ g.dr_i src = some (src + g.grid_length + 1)
    ∧ g.dn_i src = some (src + g.grid_length)
    ∧ g.dl_i src = some (src + g.grid_length - 1)
    ∧ g.lt_i src = some (src - 1)
    ∧ g.ul_i src = some (src - g.grid_length - 1)
    ∧ g.up_i src = some (src - g.grid_length)
    ∧ g.ur_i src = some (src - g.grid_length + 1) := by
  obtain ⟨hL2, hH2, hL5, rfl⟩ := new_eq_some hg
  rw [mkGrid_middle, mem_middle_of] at hmid
  obtain ⟨hs, hlc, hrc, htr, hbr⟩ := hmid
  have hS : src < (mkGrid L H).total_indices := by rw [mkGrid_total]; exact hs
  have hLC : src ∉ (mkGrid L H).left_column_indices := by
    rw [mkGrid_left_col]; exact hlc
  have hRC : src ∉ (mkGrid L H).right_column_indices := by
    rw [mkGrid_right_col]; exact hrc
  have hTR : src ∉ (mkGrid L H).top_row_indices := by
    rw [mkGrid_top_row]; exact htr
  have hBR : src ∉ (mkGrid L H).bottom_row_indices := by
    rw [mkGrid_bottom_row]; exact hbr
  rw [mkGrid_length]
  refine ⟨?_, ?_, ?_, ?_, ?_, ?_, ?_, ?_⟩
  · rw [rt_i_spec L H hL2 hL5 hH2 hHC src, if_pos ⟨hS, hRC⟩]
  · rw [dr_i_spec L H hL2 hL5 hH2 hHC src, if_pos ⟨hS, hRC, hBR⟩]
  · rw [dn_i_spec L H hL2 hL5 hH2 hHC src, if_pos ⟨hS, hBR⟩]
  · rw [dl_i_spec L H hL2 hL5 hH2 hHC src, if_pos ⟨hS, hLC, hBR⟩]
  · rw [lt_i_spec L H hL2 hL5 hH2 hHC src, if_pos ⟨hS, hLC⟩]
  · rw [ul_i_spec L H hL2 hL5 hH2 hHC src, if_pos ⟨hS, hLC, hTR⟩]
  · rw [up_i_spec L H hL2 hL5 hH2 hHC src, if_pos ⟨hS, hTR⟩]
  · rw [ur_i_spec L H hL2 hL5 hH2 hHC src, if_pos ⟨hS, hRC, hTR⟩]

theorem c5_interior_neighbors_witness : (mkGrid 8 8).ul_i 9 = some 0 := by
  have h := (c5_interior_neighbors 8 8 (mkGrid 8 8) rfl (by decide) 9
    (by decide)).2.2.2.2.2.1
  simpa using h

/-- C4 (amended): when `grid_length * grid_height` fits in `usize`, the four
precomputed edge vectors are exactly the claimed sequences. -/
theorem c4_edge_sets (L H : Nat) (g : GridIndex)
    (hg : GridIndex.new L H = some g) (hP : L * H < usizeCard) :
    g.top_row_indices = List.range' 0 g.grid_length
    ∧ g.bottom_row_indices =
        List.range' (g.total_indices - g.grid_length) g.grid_length
    ∧ g.left_column_indices =
        (List.range g.grid_height).map (fun k => k * g.grid_length)
    ∧ g.right_column_indices =
        (List.range g.grid_height).map (fun k => (k + 1) * g.grid_length - 1) := by
  obtain ⟨hL2, hH2, hL5, rfl⟩ := new_eq_some hg
  have hHC := height_lt_of_no_overflow L H hL2 (by omega) hP
  rw [mkGrid_length, mkGrid_height, total_mkGrid L H hP]
  refine ⟨top_row_mkGrid L H (by omega) hL5,
    bottom_row_mkGrid L H hL2 (by omega) hP hHC, ?_, ?_⟩
  · rw [left_col_mkGrid L H (by omega) hP]
    exact List.map_congr_left fun i _ => by ring
  · rw [right_col_mkGrid L H (by omega) hL5 hP]
    refine List.map_congr_left fun i hi => ?_
    have h : (i + 1) * L = L * i + L := by ring
    omega

theorem c4_edge_sets_witness :
    (mkGrid 8 8).top_row_indices = List.range' 0 (mkGrid 8 8).grid_length :=
  (c4_edge_sets 8 8 (mkGrid 8 8) rfl (by decide)).1

/-- C4 counterexample: for the constructed grid `new 3 6148914691236517206`
(whose cell count wraps to `2`), the bottom row vector is empty instead of a
sequence of `grid_length` indices ending at `total_indices - 1`. -/
theorem c4_counterexample :
    ¬ (∀ (L H : Nat) (g : GridIndex), GridIndex.new L H = some g →
        g.bottom_row_indices =
          List.range' (g.total_indices - g.grid_length) g.grid_length) := by
  intro h
  have hb := h 3 6148914691236517206 (mkGrid 3 6148914691236517206) rfl
  rw [show (mkGrid 3 6148914691236517206).bottom_row_indices = ([] : List Nat)
      from rfl,
    show (mkGrid 3 6148914691236517206).grid_length = 3 from rfl] at hb
  have hlen := congrArg List.length hb
  rw [List.length_range'] at hlen
  simp at hlen

/-- C6 (amended): for every constructed grid the middle set is disjoint from
all four edge sets (by construction), and when `grid_length * grid_height`
additionally fits in `usize`, the five index sets together cover exactly
`[0, total_indices)`. -/
theorem c6_partition (L H : Nat) (g : GridIndex)
    (hg : GridIndex.new L H = some g) :
    (∀ x ∈ g.middle_indices,
        x ∉ g.top_row_indices ∧ x ∉ g.bottom_row_indices ∧
        x ∉ g.left_column_indices ∧ x ∉ g.right_column_indices)
    ∧ (L * H < usizeCard →
      ∀ x : Nat,
        (x ∈ g.top_row_indices ∨ x ∈ g.bottom_row_indices ∨
          x ∈ g.left_column_indices ∨ x ∈ g.right_column_indices ∨
          x ∈ g.middle_indices) ↔ x < g.total_indices) := by
  obtain ⟨hL2, hH2, hL5, rfl⟩ := new_eq_some hg
  constructor
  · intro x hx
    rw [mkGrid_middle, mem_middle_of] at hx
    obtain ⟨-, hlc, hrc, htr, hbr⟩ := hx
    refine ⟨?_, ?_, ?_, ?_⟩
    · rw [mkGrid_top_row]; exact htr
    · rw [mkGrid_bottom_row]; exact hbr
    · rw [mkGrid_left_col]; exact hlc
    · rw [mkGrid_right_col]; exact hrc
  · intro hP x
    have hHC := height_lt_of_no_overflow L H hL2 (by omega) hP
    have hLle : L ≤ L * H := Nat.le_mul_of_pos_right L (by omega)
    constructor
    · rintro (hx | hx | hx | hx | hx)
      · rw [top_row_mkGrid L H (by omega) hL5, List.mem_range'_1] at hx
        rw [total_mkGrid L H hP]
        omega
      · rw [mem_bottom_row_mkGrid L H x hL2 (by omega) hP hHC] at hx
        rw [total_mkGrid L H hP]
        omega
      · rw [left_col_mkGrid L H (by omega) hP] at hx
        obtain ⟨i, hi, rfl⟩ := List.mem_map.mp hx
        rw [List.mem_range] at hi
        have h1 : L * (i + 1) ≤ L * H := Nat.mul_le_mul_left L (by omega)
        have h2 : L * (i + 1) = L * i + L := by ring
        rw [total_mkGrid L H hP]
        omega
      · rw [right_col_mkGrid L H (by omega) hL5 hP] at hx
        obtain ⟨i, hi, rfl⟩ := List.mem_map.mp hx
        rw [List.mem_range] at hi
        have h1 : L * (i + 1) ≤ L * H := Nat.mul_le_mul_left L (by omega)
        have h2 : L * (i + 1) = L * i + L := by ring
        rw [total_mkGrid L H hP]
        omega
      · rw [mkGrid_middle, mem_middle_of] at hx
        rw [mkGrid_total]
        exact hx.1
    · intro hx
      by_cases h1 : x ∈ (mkGrid L H).top_row_indices
      · exact Or.inl h1
      by_cases h2 : x ∈ (mkGrid L H).bottom_row_indices
      · exact Or.inr (Or.inl h2)
      by_cases h3 : x ∈ (mkGrid L H).left_column_indices
      · exact Or.inr (Or.inr (Or.inl h3))
      by_cases h4 : x ∈ (mkGrid L H).right_column_indices
      · exact Or.inr (Or.inr (Or.inr (Or.inl h4)))
      refine Or.inr (Or.inr (Or.inr (Or.inr ?_)))
      rw [mkGrid_total] at hx
      rw [mkGrid_left_col] at h3
      rw [mkGrid_right_col] at h4
      rw [mkGrid_top_row] at h1
      rw [mkGrid_bottom_row] at h2
      rw [mkGrid_middle, mem_middle_of]
      exact ⟨hx, h3, h4, h1, h2⟩

theorem c6_partition_witness : (5 : Nat) < (mkGrid 8 8).total_indices :=
  ((c6_partition 8 8 (mkGrid 8 8) rfl).2 (by decide) 5).mp (Or.inl (by decide))

/-- C6 counterexample: for the constructed grid `new 3 6148914691236517206`
the union of the five sets is not `[0, total_indices)`: index `2` lies in the
top row but `total_indices` is the wrapped value `2`. -/
theorem c6_counterexample :
    ¬ (∀ (L H : Nat) (g : GridIndex), GridIndex.new L H = some g →
        ∀ x : Nat,
          (x ∈ g.top_row_indices ∨ x ∈ g.bottom_row_indices ∨
            x ∈ g.left_column_indices ∨ x ∈ g.right_column_indices ∨
            x ∈ g.middle_indices) ↔ x < g.total_indices) := by
  intro h
  have h2 := (h 3 6148914691236517206 (mkGrid 3 6148914691236517206) rfl 2).mp
    (Or.inl (by decide))
  rw [show (mkGrid 3 6148914691236517206).total_indices = 2 from rfl] at h2
  omega

theorem row_cell_indexes_eq (g : GridIndex) (row : Nat) :
    g.row_cell_indexes row =
      if row ≥ g.grid_height then none
      else some (row_indices g.grid_length row) := rfl

theorem col_cell_indexes_eq (g : GridIndex) (column : Nat) :
    g.col_cell_indexes column =
      if column ≥ g.grid_length then none
      else some (column_indices g.grid_length g.grid_height column) := rfl

theorem column_indices_no_overflow (L H col : Nat) (hL1 : 1 ≤ L) (hcol : col < L)
    (hP : L * H < usizeCard) :
    column_indices L H col = (List.range H).map (fun i => col + i * L) := by
  unfold column_indices
  refine List.map_congr_left ?_
  intro i hi
  rw [List.mem_range] at hi
  have h1 : L * (i + 1) ≤ L * H := Nat.mul_le_mul_left L (by omega)
  have h2 : L * (i + 1) = L * i + L := by ring
  have h3 : L * i = i * L := Nat.mul_comm L i
  unfold wadd wmul usizeCard at *
  omega

/-- C7 (amended): for every constructed grid (with a representable height),
`row_cell_indexes` and `col_cell_indexes` return `none` on out-of-range
selectors, `row_cell_indexes 0` is the top row and
`row_cell_indexes (grid_height - 1)` is the bottom row; when
`grid_length * grid_height` additionally fits in `usize`, the in-range
selectors return the claimed ordered sequences. -/
theorem c7_row_col_by_number (L H : Nat) (g : GridIndex)
    (hg : GridIndex.new L H = some g) (hHC : H < usizeCard) :
    (∀ r, H ≤ r → g.row_cell_indexes r = none)
    ∧ (∀ c, L ≤ c → g.col_cell_indexes c = none)
    ∧ g.row_cell_indexes 0 = some g.top_row_indices
    ∧ g.row_cell_indexes (H - 1) = some g.bottom_row_indices
    ∧ (L * H < usizeCard →
        (∀ r, r < H → g.row_cell_indexes r = some (List.range' (r * L) L))
        ∧ (∀ c, c < L →
            g.col_cell_indexes c =
              some ((List.range H).map (fun k => c + k * L)))) := by
  obtain ⟨hL2, hH2, hL5, rfl⟩ := new_eq_some hg
  refine ⟨?_, ?_, ?_, ?_, ?_⟩
  · intro r hr
    rw [row_cell_indexes_eq, mkGrid_height, if_pos (show r ≥ H by omega)]
  · intro c hc
    rw [col_cell_indexes_eq, mkGrid_length, if_pos (show c ≥ L by omega)]
  · rw [row_cell_indexes_eq, mkGrid_height, mkGrid_length,
      if_neg (show ¬ 0 ≥ H by omega), mkGrid_top_row]
  · rw [row_cell_indexes_eq, mkGrid_height, mkGrid_length,
      if_neg (show ¬ H - 1 ≥ H by omega), mkGrid_bottom_row,
      wsub_eq (show 1 ≤ H by omega) hHC]
  · intro hP
    constructor
    · intro r hr
      rw [row_cell_indexes_eq, mkGrid_height, mkGrid_length,
        if_neg (show ¬ r ≥ H by omega)]
      have h1 : L * (r + 1) ≤ L * H := Nat.mul_le_mul_left L (by omega)
      have h2 : L * (r + 1) = L * r + L := by ring
      rw [row_indices_eq L r (by omega) (by omega), Nat.mul_comm L r]
    · intro c hc
      rw [col_cell_indexes_eq, mkGrid_height, mkGrid_length,
        if_neg (show ¬ c ≥ L by omega),
        column_indices_no_overflow L H c (by omega) hc hP]

theorem c7_row_col_by_number_witness :
    (mkGrid 8 8).row_cell_indexes 2 = some (List.range' (2 * 8) 8) :=
  ((c7_row_col_by_number 8 8 (mkGrid 8 8) rfl (by decide)).2.2.2.2
    (by decide)).1 2 (by omega)

/-- C7 counterexample: for the constructed grid `new 3 6148914691236517206`,
row number `grid_height - 1` is in range but its returned sequence is empty
rather than the claimed three-element interval. -/
theorem c7_counterexample :
    ¬ (∀ (L H : Nat) (g : GridIndex), GridIndex.new L H = some g →
        ∀ r, r < g.grid_height →
          g.row_cell_indexes r =
            some (List.range' (r * g.grid_length) g.grid_length)) := by
  intro h
  have hb := h 3 6148914691236517206 (mkGrid 3 6148914691236517206) rfl
    (6148914691236517206 - 1)
    (by rw [show (mkGrid 3 6148914691236517206).grid_height = 6148914691236517206
         from rfl]; omega)
  rw [show (mkGrid 3 6148914691236517206).row_cell_indexes (6148914691236517206 - 1)
      = some ([] : List Nat) from rfl,
    show (mkGrid 3 6148914691236517206).grid_length = 3 from rfl] at hb
  have hlen := congrArg (Option.map List.length) hb
  simp [List.length_range'] at hlen

theorem mod_mul_sub_one (L H : Nat) (hL2 : 2 ≤ L) (hH1 : 1 ≤ H) :
    (L * H - 1) % L = L - 1 := by
  have hm := mul_pred L H hH1
  rw [show L * H - 1 = L * (H - 1) + (L - 1) by omega, Nat.mul_add_mod]
  exact Nat.mod_eq_of_lt (by omega)

theorem mod_mul_sub_len_one (L H : Nat) (hL2 : 2 ≤ L) (hH2 : 2 ≤ H) :
    (L * H - L - 1) % L = L - 1 := by
  have hm1 := mul_pred L H (by omega)
  have hm2 := mul_pred L (H - 1) (by omega)
  rw [show H - 1 - 1 = H - 2 by omega] at hm2
  rw [show L * H - L - 1 = L * (H - 2) + (L - 1) by omega, Nat.mul_add_mod]
  exact Nat.mod_eq_of_lt (by omega)

/-- C3 (amended): when `grid_length * grid_height` fits in `usize`, every one
of the eight neighbor queries, on any source index whatsoever, returns either
`none` or an index inside `[0, total_indices)` (in the wrapping model the
functions are total, so no panic is possible). -/
theorem c3_neighbor_in_range (L H : Nat) (g : GridIndex)
    (hg : GridIndex.new L H = some g) (hP : L * H < usizeCard) (src : Nat) :
    (∀ j, g.rt_i src = some j → j < g.total_indices)
    ∧ (∀ j, g.dr_i src = some j → j < g.total_indices)
    ∧ (∀ j, g.dn_i src = some j → j < g.total_indices)
    ∧ (∀ j, g.dl_i src = some j → j < g.total_indices)
    ∧ (∀ j, g.lt_i src = some j → j < g.total_indices)
    ∧ (∀ j, g.ul_i src = some j → j < g.total_indices)
    ∧ (∀ j, g.up_i src = some j → j < g.total_indices)
    ∧ (∀ j, g.ur_i src = some j → j < g.total_indices) := by
  obtain ⟨hL2, hH2, hL5, rfl⟩ := new_eq_some hg
  have hHC := height_lt_of_no_overflow L H hL2 (by omega) hP
  have htot := total_mkGrid L H hP
  have hLle : L ≤ L * H := Nat.le_mul_of_pos_right L (by omega)
  refine ⟨?_, ?_, ?_, ?_, ?_, ?_, ?_, ?_⟩
  · intro j hj
    rw [rt_i_spec L H hL2 hL5 hH2 hHC src] at hj
    by_cases hc : src < (mkGrid L H).total_indices ∧
        src ∉ (mkGrid L H).right_column_indices
    · rw [if_pos hc] at hj
      obtain rfl := Option.some.inj hj
      have hs := hc.1
      rw [htot] at hs
      have hrc := hc.2
      rw [mem_right_col_mkGrid L H src (by omega) hL5 hP hs] at hrc
      rw [htot]
      by_contra hcon
      rw [show src = L * H - 1 by omega, mod_mul_sub_one L H hL2 (by omega)] at hrc
      exact hrc rfl
    · rw [if_neg hc] at hj
      simp at hj
  · intro j hj
    rw [dr_i_spec L H hL2 hL5 hH2 hHC src] at hj
    by_cases hc : src < (mkGrid L H).total_indices ∧
        src ∉ (mkGrid L H).right_column_indices ∧
        src ∉ (mkGrid L H).bottom_row_indices
    · rw [if_pos hc] at hj
      obtain rfl := Option.some.inj hj
      have hs := hc.1
      rw [htot] at hs
      have hrc := hc.2.1
      rw [mem_right_col_mkGrid L H src (by omega) hL5 hP hs] at hrc
      have hbr := hc.2.2
      rw [mem_bottom_row_mkGrid L H src hL2 (by omega) hP hHC] at hbr
      rw [htot]
      by_contra hcon
      rw [show src = L * H - L - 1 by omega,
        mod_mul_sub_len_one L H hL2 hH2] at hrc
      exact hrc rfl
    · rw [if_neg hc] at hj
      simp at hj
  · intro j hj
    rw [dn_i_spec L H hL2 hL5 hH2 hHC src] at hj
    by_cases hc : src < (mkGrid L H).total_indices ∧
        src ∉ (mkGrid L H).bottom_row_indices
    · rw [if_pos hc] at hj
      obtain rfl := Option.some.inj hj
      have hs := hc.1
      rw [htot] at hs
      have hbr := hc.2
      rw [mem_bottom_row_mkGrid L H src hL2 (by omega) hP hHC] at hbr
      rw [htot]
      omega
    · rw [if_neg hc] at hj
      simp at hj
  · intro j hj
    rw [dl_i_spec L H hL2 hL5 hH2 hHC src] at hj
    by_cases hc : src < (mkGrid L H).total_indices ∧
        src ∉ (mkGrid L H).left_column_indices ∧
        src ∉ (mkGrid L H).bottom_row_indices
    · rw [if_pos hc] at hj
      obtain rfl := Option.some.inj hj
      have hs := hc.1
      rw [htot] at hs
      have hbr := hc.2.2
      rw [mem_bottom_row_mkGrid L H src hL2 (by omega) hP hHC] at hbr
      rw [htot]
      omega
    · rw [if_neg hc] at hj
      simp at hj
  · intro j hj
    rw [lt_i_spec L H hL2 hL5 hH2 hHC src] at hj
    by_cases hc : src < (mkGrid L H).total_indices ∧
        src ∉ (mkGrid L H).left_column_indices
    · rw [if_pos hc] at hj
      obtain rfl := Option.some.inj hj
      have hs := hc.1
      omega
    · rw [if_neg hc] at hj
      simp at hj
  · intro j hj
    rw [ul_i_spec L H hL2 hL5 hH2 hHC src] at hj
    by_cases hc : src < (mkGrid L H).total_indices ∧
        src ∉ (mkGrid L H).left_column_indices ∧
        src ∉ (mkGrid L H).top_row_indices
    · rw [if_pos hc] at hj
      obtain rfl := Option.some.inj hj
      have hs := hc.1
      omega
    · rw [if_neg hc] at hj
      simp at hj
  · intro j hj
    rw [up_i_spec L H hL2 hL5 hH2 hHC src] at hj
    by_cases hc : src < (mkGrid L H).total_indices ∧
        src ∉ (mkGrid L H).top_row_indices
    · rw [if_pos hc] at hj
      obtain rfl := Option.some.inj hj
      have hs := hc.1
      omega
    · rw [if_neg hc] at hj
      simp at hj
  · intro j hj
    rw [ur_i_spec L H hL2 hL5 hH2 hHC src] at hj
    by_cases hc : src < (mkGrid L H).total_indices ∧
        src ∉ (mkGrid L H).right_column_indices ∧
        src ∉ (mkGrid L H).top_row_indices
    · rw [if_pos hc] at hj
      obtain rfl := Option.some.inj hj
      have hs := hc.1
      omega
    · rw [if_neg hc] at hj
      simp at hj

theorem c3_neighbor_in_range_witness : (10 : Nat) < (mkGrid 8 8).total_indices :=
  (c3_neighbor_in_range 8 8 (mkGrid 8 8) rfl (by decide) 9).1 10 (by decide)

/-- C3 counterexample: for the constructed grid `new 3 6148914691236517206`
(total wraps to `2`, bottom row vector empty), `dn_i 0` returns `some 3`,
an index outside `[0, total_indices)`. -/
theorem c3_counterexample :
    ¬ (∀ (L H : Nat) (g : GridIndex), GridIndex.new L H = some g →
        ∀ src j, g.dn_i src = some j → j < g.total_indices) := by
  intro h
  have hb := h 3 6148914691236517206 (mkGrid 3 6148914691236517206) rfl 0 3
    (by rfl)
  rw [show (mkGrid 3 6148914691236517206).total_indices = 2 from rfl] at hb
  omega

/-- C9 (amended): when `grid_length * grid_height` fits in `usize`, each of
the four corners has exactly three present neighbors (with the stated offset
values) and five absent ones. -/
theorem c9_corner_neighbors (L H : Nat) (g : GridIndex)
    (hg : GridIndex.new L H = some g) (hP : L * H < usizeCard) :
    (g.rt_i g.top_left_corner = some (g.top_left_corner + 1)
      ∧ g.dr_i g.top_left_corner = some (g.top_left_corner + g.grid_length + 1)
      ∧ g.dn_i g.top_left_corner = some (g.top_left_corner + g.grid_length)
      ∧ g.dl_i g.top_left_corner = none
      ∧ g.lt_i g.top_left_corner = none
      ∧ g.ul_i g.top_left_corner = none
      ∧ g.up_i g.top_left_corner = none
      ∧ g.ur_i g.top_left_corner = none)
    ∧ (g.rt_i g.top_right_corner = none
      ∧ g.dr_i g.top_right_corner = none
      ∧ g.dn_i g.top_right_corner = some (g.top_right_corner + g.grid_length)
      ∧ g.dl_i g.top_right_corner = some (g.top_right_corner + g.grid_length - 1)
      ∧ g.lt_i g.top_right_corner = some (g.top_right_corner - 1)
      ∧ g.ul_i g.top_right_corner = none
      ∧ g.up_i g.top_right_corner = none
      ∧ g.ur_i g.top_right_corner = none)
    ∧ (g.rt_i g.bottom_left_corner = some (g.bottom_left_corner + 1)
      ∧ g.dr_i g.bottom_left_corner = none
      ∧ g.dn_i g.bottom_left_corner = none
      ∧ g.dl_i g.bottom_left_corner = none
      ∧ g.lt_i g.bottom_left_corner = none
      ∧ g.ul_i g.bottom_left_corner = none
      ∧ g.up_i g.bottom_left_corner = some (g.bottom_left_corner - g.grid_length)
      ∧ g.ur_i g.bottom_left_corner =
          some (g.bottom_left_corner - g.grid_length + 1))
    ∧ (g.rt_i g.bottom_right_corner = none
      ∧ g.dr_i g.bottom_right_corner = none
      ∧ g.dn_i g.bottom_right_corner = none
      ∧ g.dl_i g.bottom_right_corner = none
      ∧ g.lt_i g.bottom_right_corner = some (g.bottom_right_corner - 1)
      ∧ g.ul_i g.bottom_right_corner =
          some (g.bottom_right_corner - g.grid_length - 1)
      ∧ g.up_i g.bottom_right_corner = some (g.bottom_right_corner - g.grid_length)
      ∧ g.ur_i g.bottom_right_corner = none) := by
  obtain ⟨hL2, hH2, hL5, rfl⟩ := new_eq_some hg
  have hHC := height_lt_of_no_overflow L H hL2 (by omega) hP
  have htot := total_mkGrid L H hP
  have hLle : L ≤ L * H := Nat.le_mul_of_pos_right L (by omega)
  have hP2 : L * 2 ≤ L * H := Nat.mul_le_mul_left L hH2
  have hm := mul_pred L H (by omega)
  have htr2 : (mkGrid L H).top_right_corner = L - 1 := by
    rw [mkGrid_top_right, wsub_eq (by omega) (by rw [usizeCard_eq]; omega)]
  have hbl2 : (mkGrid L H).bottom_left_corner = L * H - L := by
    rw [mkGrid_bottom_left, wmul_eq hP, wsub_eq hLle hP]
  have hbr2 : (mkGrid L H).bottom_right_corner = L * H - 1 := by
    rw [mkGrid_bottom_right, wmul_eq hP, wsub_eq (by omega) hP]
  have hS0 : 0 < (mkGrid L H).total_indices := by rw [htot]; omega
  have hS2 : L - 1 < (mkGrid L H).total_indices := by rw [htot]; omega
  have hS3 : L * H - L < (mkGrid L H).total_indices := by rw [htot]; omega
  have hS4 : L * H - 1 < (mkGrid L H).total_indices := by rw [htot]; omega
  have t1 : 0 ∈ (mkGrid L H).top_row_indices :=
    (mem_top_row_mkGrid L H 0 (by omega) hL5).mpr (by omega)
  have t2 : L - 1 ∈ (mkGrid L H).top_row_indices :=
    (mem_top_row_mkGrid L H (L - 1) (by omega) hL5).mpr (by omega)
  have t3 : L * H - L ∉ (mkGrid L H).top_row_indices := by
    rw [mem_top_row_mkGrid L H (L * H - L) (by omega) hL5]
    omega
  have t4 : L * H - 1 ∉ (mkGrid L H).top_row_indices := by
    rw [mem_top_row_mkGrid L H (L * H - 1) (by omega) hL5]
    omega
  have b1 : (0 : Nat) ∉ (mkGrid L H).bottom_row_indices := by
    rw [mem_bottom_row_mkGrid L H 0 hL2 (by omega) hP hHC]
    omega
  have b2 : L - 1 ∉ (mkGrid L H).bottom_row_indices := by
    rw [mem_bottom_row_mkGrid L H (L - 1) hL2 (by omega) hP hHC]
    omega
  have b3 : L * H - L ∈ (mkGrid L H).bottom_row_indices := by
    rw [mem_bottom_row_mkGrid L H (L * H - L) hL2 (by omega) hP hHC]
    omega
  have b4 : L * H - 1 ∈ (mkGrid L H).bottom_row_indices := by
    rw [mem_bottom_row_mkGrid L H (L * H - 1) hL2 (by omega) hP hHC]
    omega
  have l1 : 0 ∈ (mkGrid L H).left_column_indices := zero_mem_left_col L H (by omega)
  have l2 : L - 1 ∉ (mkGrid L H).left_column_indices := by
    rw [mem_left_col_mkGrid L H (L - 1) (by omega) hP (by omega),
      Nat.mod_eq_of_lt (by omega)]
    omega
  have l3 : L * H - L ∈ (mkGrid L H).left_column_indices := by
    rw [mem_left_col_mkGrid L H (L * H - L) (by omega) hP (by omega),
      show L * H - L = L * (H - 1) by omega]
    exact Nat.mul_mod_right L (H - 1)
  have l4 : L * H - 1 ∉ (mkGrid L H).left_column_indices := by
    rw [mem_left_col_mkGrid L H (L * H - 1) (by omega) hP (by omega),
      mod_mul_sub_one L H hL2 (by omega)]
    omega
  have r1 : (0 : Nat) ∉ (mkGrid L H).right_column_indices := by
    rw [mem_right_col_mkGrid L H 0 (by omega) hL5 hP (by omega), Nat.zero_mod]
    omega
  have r2 : L - 1 ∈ (mkGrid L H).right_column_indices := by
    rw [mem_right_col_mkGrid L H (L - 1) (by omega) hL5 hP (by omega)]
    exact Nat.mod_eq_of_lt (by omega)
  have r3 : L * H - L ∉ (mkGrid L H).right_column_indices := by
    rw [mem_right_col_mkGrid L H (L * H - L) (by omega) hL5 hP (by omega),
      show L * H - L = L * (H - 1) by omega, Nat.mul_mod_right]
    omega
  have r4 : L * H - 1 ∈ (mkGrid L H).right_column_indices := by
    rw [mem_right_col_mkGrid L H (L * H - 1) (by omega) hL5 hP (by omega)]
    exact mod_mul_sub_one L H hL2 (by omega)
  rw [mkGrid_top_left, htr2, hbl2, hbr2, mkGrid_length]
  refine ⟨⟨?_, ?_, ?_, ?_, ?_, ?_, ?_, ?_⟩, ⟨?_, ?_, ?_, ?_, ?_, ?_, ?_, ?_⟩,
    ⟨?_, ?_, ?_, ?_, ?_, ?_, ?_, ?_⟩, ⟨?_, ?_, ?_, ?_, ?_, ?_, ?_, ?_⟩⟩
  · rw [rt_i_spec L H hL2 hL5 hH2 hHC 0, if_pos ⟨hS0, r1⟩]
  · rw [dr_i_spec L H hL2 hL5 hH2 hHC 0, if_pos ⟨hS0, r1, b1⟩]
  · rw [dn_i_spec L H hL2 hL5 hH2 hHC 0, if_pos ⟨hS0, b1⟩]
  · rw [dl_i_spec L H hL2 hL5 hH2 hHC 0, if_neg (fun hc => hc.2.1 l1)]
  · rw [lt_i_spec L H hL2 hL5 hH2 hHC 0, if_neg (fun hc => hc.2 l1)]
  · rw [ul_i_spec L H hL2 hL5 hH2 hHC 0, if_neg (fun hc => hc.2.1 l1)]
  · rw [up_i_spec L H hL2 hL5 hH2 hHC 0, if_neg (fun hc => hc.2 t1)]
  · rw [ur_i_spec L H hL2 hL5 hH2 hHC 0, if_neg (fun hc => hc.2.2 t1)]
  · rw [rt_i_spec L H hL2 hL5 hH2 hHC (L - 1), if_neg (fun hc => hc.2 r2)]
  · rw [dr_i_spec L H hL2 hL5 hH2 hHC (L - 1), if_neg (fun hc => hc.2.1 r2)]
  · rw [dn_i_spec L H hL2 hL5 hH2 hHC (L - 1), if_pos ⟨hS2, b2⟩]
  · rw [dl_i_spec L H hL2 hL5 hH2 hHC (L - 1), if_pos ⟨hS2, l2, b2⟩]
  · rw [lt_i_spec L H hL2 hL5 hH2 hHC (L - 1), if_pos ⟨hS2, l2⟩]
  · rw [ul_i_spec L H hL2 hL5 hH2 hHC (L - 1), if_neg (fun hc => hc.2.2 t2)]
  · rw [up_i_spec L H hL2 hL5 hH2 hHC (L - 1), if_neg (fun hc => hc.2 t2)]
  · rw [ur_i_spec L H hL2 hL5 hH2 hHC (L - 1), if_neg (fun hc => hc.2.2 t2)]
  · rw [rt_i_spec L H hL2 hL5 hH2 hHC (L * H - L), if_pos ⟨hS3, r3⟩]
  · rw [dr_i_spec L H hL2 hL5 hH2 hHC (L * H - L), if_neg (fun hc => hc.2.2 b3)]
  · rw [dn_i_spec L H hL2 hL5 hH2 hHC (L * H - L), if_neg (fun hc => hc.2 b3)]
  · rw [dl_i_spec L H hL2 hL5 hH2 hHC (L * H - L), if_neg (fun hc => hc.2.1 l3)]
  · rw [lt_i_spec L H hL2 hL5 hH2 hHC (L * H - L), if_neg (fun hc => hc.2 l3)]
  · rw [ul_i_spec L H hL2 hL5 hH2 hHC (L * H - L), if_neg (fun hc => hc.2.1 l3)]
  · rw [up_i_spec L H hL2 hL5 hH2 hHC (L * H - L), if_pos ⟨hS3, t3⟩]
  · rw [ur_i_spec L H hL2 hL5 hH2 hHC (L * H - L), if_pos ⟨hS3, r3, t3⟩]
  · rw [rt_i_spec L H hL2 hL5 hH2 hHC (L * H - 1), if_neg (fun hc => hc.2 r4)]
  · rw [dr_i_spec L H hL2 hL5 hH2 hHC (L * H - 1), if_neg (fun hc => hc.2.1 r4)]
  · rw [dn_i_spec L H hL2 hL5 hH2 hHC (L * H - 1), if_neg (fun hc => hc.2 b4)]
  · rw [dl_i_spec L H hL2 hL5 hH2 hHC (L * H - 1), if_neg (fun hc => hc.2.2 b4)]
  · rw [lt_i_spec L H hL2 hL5 hH2 hHC (L * H - 1), if_pos ⟨hS4, l4⟩]
  · rw [ul_i_spec L H hL2 hL5 hH2 hHC (L * H - 1), if_pos ⟨hS4, l4, t4⟩]
  · rw [up_i_spec L H hL2 hL5 hH2 hHC (L * H - 1), if_pos ⟨hS4, t4⟩]
  · rw [ur_i_spec L H hL2 hL5 hH2 hHC (L * H - 1), if_neg (fun hc => hc.2.1 r4)]

theorem c9_corner_neighbors_witness :
    (mkGrid 8 8).dn_i (mkGrid 8 8).top_left_corner =
      some ((mkGrid 8 8).top_left_corner + (mkGrid 8 8).grid_length) :=
  (c9_corner_neighbors 8 8 (mkGrid 8 8) rfl (by decide)).1.2.2.1

/-- C9 counterexample: for the constructed grid `new 2 9223372036854775808`
the wrapped total is `0`, so even the top-left corner's right neighbor is
`none` rather than `corner + 1`. -/
theorem c9_counterexample :
    ¬ (∀ (L H : Nat) (g : GridIndex), GridIndex.new L H = some g →
        g.rt_i g.top_left_corner = some (g.top_left_corner + 1)) := by
  intro h
  have hb := h 2 9223372036854775808 (mkGrid 2 9223372036854775808) rfl
  rw [show (mkGrid 2 9223372036854775808).rt_i
      (mkGrid 2 9223372036854775808).top_left_corner = none from rfl] at hb
  exact Option.noConfusion hb

/-- C10 (amended): when `grid_length * grid_height` fits in `usize`, the four
opposite-direction query pairs are mutually inverse: whenever one query maps
`src` to `j`, the opposite query maps `j` back to `src`. -/
theorem c10_opposite_inverses (L H : Nat) (g : GridIndex)
    (hg : GridIndex.new L H = some g) (hP : L * H < usizeCard) (src j : Nat) :
    (g.rt_i src = some j → g.lt_i j = some src)
    ∧ (g.lt_i src = some j → g.rt_i j = some src)
    ∧ (g.dn_i src = some j → g.up_i j = some src)
    ∧ (g.up_i src = some j → g.dn_i j = some src)
    ∧ (g.dr_i src = some j → g.ul_i j = some src)
    ∧ (g.ul_i src = some j → g.dr_i j = some src)
    ∧ (g.dl_i src = some j → g.ur_i j = some src)
    ∧ (g.ur_i src = some j → g.dl_i j = some src) := by
  obtain ⟨hL2, hH2, hL5, rfl⟩ := new_eq_some hg
  have hHC := height_lt_of_no_overflow L H hL2 (by omega) hP
  have htot := total_mkGrid L H hP
  have hLle : L ≤ L * H := Nat.le_mul_of_pos_right L (by omega)
  have hd := Nat.div_add_mod src L
  have hmod : src % L < L := Nat.mod_lt src (by omega)
  refine ⟨?_, ?_, ?_, ?_, ?_, ?_, ?_, ?_⟩
  · intro hj
    rw [rt_i_spec L H hL2 hL5 hH2 hHC src] at hj
    by_cases hc : src < (mkGrid L H).total_indices ∧
        src ∉ (mkGrid L H).right_column_indices
    · rw [if_pos hc] at hj
      obtain rfl := Option.some.inj hj
      have hs := hc.1
      rw [htot] at hs
      have hrc := hc.2
      rw [mem_right_col_mkGrid L H src (by omega) hL5 hP hs] at hrc
      have hjT : src + 1 < L * H := by
        by_contra hcon
        rw [show src = L * H - 1 by omega, mod_mul_sub_one L H hL2 (by omega)] at hrc
        exact hrc rfl
      have hjlc : src + 1 ∉ (mkGrid L H).left_column_indices := by
        rw [mem_left_col_mkGrid L H (src + 1) (by omega) hP hjT,
          show src + 1 = L * (src / L) + (src % L + 1) by omega,
          Nat.mul_add_mod, Nat.mod_eq_of_lt (by omega)]
        omega
      rw [lt_i_spec L H hL2 hL5 hH2 hHC (src + 1),
        if_pos ⟨by rw [htot]; omega, hjlc⟩, show src + 1 - 1 = src by omega]
    · rw [if_neg hc] at hj
      exact Option.noConfusion hj
  · intro hj
    rw [lt_i_spec L H hL2 hL5 hH2 hHC src] at hj
    by_cases hc : src < (mkGrid L H).total_indices ∧
        src ∉ (mkGrid L H).left_column_indices
    · rw [if_pos hc] at hj
      obtain rfl := Option.some.inj hj
      have hs := hc.1
      rw [htot] at hs
      have hlc := hc.2
      rw [mem_left_col_mkGrid L H src (by omega) hP hs] at hlc
      have hjrc : src - 1 ∉ (mkGrid L H).right_column_indices := by
        rw [mem_right_col_mkGrid L H (src - 1) (by omega) hL5 hP (by omega),
          show src - 1 = L * (src / L) + (src % L - 1) by omega,
          Nat.mul_add_mod, Nat.mod_eq_of_lt (by omega)]
        omega
      rw [rt_i_spec L H hL2 hL5 hH2 hHC (src - 1),
        if_pos ⟨by rw [htot]; omega, hjrc⟩, show src - 1 + 1 = src by omega]
    · rw [if_neg hc] at hj
      exact Option.noConfusion hj
  · intro hj
    rw [dn_i_spec L H hL2 hL5 hH2 hHC src] at hj
    by_cases hc : src < (mkGrid L H).total_indices ∧
        src ∉ (mkGrid L H).bottom_row_indices
    · rw [if_pos hc] at hj
      obtain rfl := Option.some.inj hj
      have hs := hc.1
      rw [htot] at hs
      have hbr := hc.2
      rw [mem_bottom_row_mkGrid L H src hL2 (by omega) hP hHC] at hbr
      have htr' : src + L ∉ (mkGrid L H).top_row_indices := by
        rw [mem_top_row_mkGrid L H (src + L) (by omega) hL5]
        omega
      rw [up_i_spec L H hL2 hL5 hH2 hHC (src + L),
        if_pos ⟨by rw [htot]; omega, htr'⟩, show src + L - L = src by omega]
    · rw [if_neg hc] at hj
      exact Option.noConfusion hj
  · intro hj
    rw [up_i_spec L H hL2 hL5 hH2 hHC src] at hj
    by_cases hc : src < (mkGrid L H).total_indices ∧
        src ∉ (mkGrid L H).top_row_indices
    · rw [if_pos hc] at hj
      obtain rfl := Option.some.inj hj
      have hs := hc.1
      rw [htot] at hs
      have htr := hc.2
      rw [mem_top_row_mkGrid L H src (by omega) hL5] at htr
      have hbr' : src - L ∉ (mkGrid L H).bottom_row_indices := by
        rw [mem_bottom_row_mkGrid L H (src - L) hL2 (by omega) hP hHC]
        omega
      rw [dn_i_spec L H hL2 hL5 hH2 hHC (src - L),
        if_pos ⟨by rw [htot]; omega, hbr'⟩, show src - L + L = src by omega]
    · rw [if_neg hc] at hj
      exact Option.noConfusion hj
  · intro hj
    rw [dr_i_spec L H hL2 hL5 hH2 hHC src] at hj
    by_cases hc : src < (mkGrid L H).total_indices ∧
        src ∉ (mkGrid L H).right_column_indices ∧
        src ∉ (mkGrid L H).bottom_row_indices
    · rw [if_pos hc] at hj
      obtain rfl := Option.some.inj hj
      have hs := hc.1
      rw [htot] at hs
      have hrc := hc.2.1
      rw [mem_right_col_mkGrid L H src (by omega) hL5 hP hs] at hrc
      have hbr := hc.2.2
      rw [mem_bottom_row_mkGrid L H src hL2 (by omega) hP hHC] at hbr
      have hjT : src + L + 1 < L * H := by
        by_contra hcon
        rw [show src = L * H - L - 1 by omega,
          mod_mul_sub_len_one L H hL2 hH2] at hrc
        exact hrc rfl
      have hq1 : L * (src / L + 1) = L * (src / L) + L := by ring
      have hjlc : src + L + 1 ∉ (mkGrid L H).left_column_indices := by
        rw [mem_left_col_mkGrid L H (src + L + 1) (by omega) hP hjT,
          show src + L + 1 = L * (src / L + 1) + (src % L + 1) by omega,
          Nat.mul_add_mod, Nat.mod_eq_of_lt (by omega)]
        omega
      have hjtr : src + L + 1 ∉ (mkGrid L H).top_row_indices := by
        rw [mem_top_row_mkGrid L H (src + L + 1) (by omega) hL5]
        omega
      rw [ul_i_spec L H hL2 hL5 hH2 hHC (src + L + 1),
        if_pos ⟨by rw [htot]; omega, hjlc, hjtr⟩,
        show src + L + 1 - L - 1 = src by omega]
    · rw [if_neg hc] at hj
      exact Option.noConfusion hj
  · intro hj
    rw [ul_i_spec L H hL2 hL5 hH2 hHC src] at hj
    by_cases hc : src < (mkGrid L H).total_indices ∧
        src ∉ (mkGrid L H).left_column_indices ∧
        src ∉ (mkGrid L H).top_row_indices
    · rw [if_pos hc] at hj
      obtain rfl := Option.some.inj hj
      have hs := hc.1
      rw [htot] at hs
      have hlc := hc.2.1
      rw [mem_left_col_mkGrid L H src (by omega) hP hs] at hlc
      have htr := hc.2.2
      rw [mem_top_row_mkGrid L H src (by omega) hL5] at htr
      have hq : 1 ≤ src / L := (Nat.one_le_div_iff (by omega)).mpr (by omega)
      have hql := mul_pred L (src / L) hq
      have hjrc : src - L - 1 ∉ (mkGrid L H).right_column_indices := by
        rw [mem_right_col_mkGrid L H (src - L - 1) (by omega) hL5 hP (by omega),
          show src - L - 1 = L * (src / L - 1) + (src % L - 1) by omega,
          Nat.mul_add_mod, Nat.mod_eq_of_lt (by omega)]
        omega
      have hjbr : src - L - 1 ∉ (mkGrid L H).bottom_row_indices := by
        rw [mem_bottom_row_mkGrid L H (src - L - 1) hL2 (by omega) hP hHC]
        omega
      rw [dr_i_spec L H hL2 hL5 hH2 hHC (src - L - 1),
        if_pos ⟨by rw [htot]; omega, hjrc, hjbr⟩,
        show src - L - 1 + L + 1 = src by omega]
    · rw [if_neg hc] at hj
      exact Option.noConfusion hj
  · intro hj
    rw [dl_i_spec L H hL2 hL5 hH2 hHC src] at hj
    by_cases hc : src < (mkGrid L H).total_indices ∧
        src ∉ (mkGrid L H).left_column_indices ∧
        src ∉ (mkGrid L H).bottom_row_indices
    · rw [if_pos hc] at hj
      obtain rfl := Option.some.inj hj
      have hs := hc.1
      rw [htot] at hs
      have hlc := hc.2.1
      rw [mem_left_col_mkGrid L H src (by omega) hP hs] at hlc
      have hbr := hc.2.2
      rw [mem_bottom_row_mkGrid L H src hL2 (by omega) hP hHC] at hbr
      have hq1 : L * (src / L + 1) = L * (src / L) + L := by ring
      have hjrc : src + L - 1 ∉ (mkGrid L H).right_column_indices := by
        rw [mem_right_col_mkGrid L H (src + L - 1) (by omega) hL5 hP (by omega),
          show src + L - 1 = L * (src / L + 1) + (src % L - 1) by omega,
          Nat.mul_add_mod, Nat.mod_eq_of_lt (by omega)]
        omega
      have hjtr : src + L - 1 ∉ (mkGrid L H).top_row_indices := by
        rw [mem_top_row_mkGrid L H (src + L - 1) (by omega) hL5]
        omega
      rw [ur_i_spec L H hL2 hL5 hH2 hHC (src + L - 1),
        if_pos ⟨by rw [htot]; omega, hjrc, hjtr⟩,
        show src + L - 1 - L + 1 = src by omega]
    · rw [if_neg hc] at hj
      exact Option.noConfusion hj
  · intro hj
    rw [ur_i_spec L H hL2 hL5 hH2 hHC src] at hj
    by_cases hc : src < (mkGrid L H).total_indices ∧
        src ∉ (mkGrid L H).right_column_indices ∧
        src ∉ (mkGrid L H).top_row_indices
    · rw [if_pos hc] at hj
      obtain rfl := Option.some.inj hj
      have hs := hc.1
      rw [htot] at hs
      have hrc := hc.2.1
      rw [mem_right_col_mkGrid L H src (by omega) hL5 hP hs] at hrc
      have htr := hc.2.2
      rw [mem_top_row_mkGrid L H src (by omega) hL5] at htr
      have hq : 1 ≤ src / L := (Nat.one_le_div_iff (by omega)).mpr (by omega)
      have hql := mul_pred L (src / L) hq
      have hjT : src + 1 < L * H := by
        by_contra hcon
        rw [show src = L * H - 1 by omega, mod_mul_sub_one L H hL2 (by omega)] at hrc
        exact hrc rfl
      have hjlc : src - L + 1 ∉ (mkGrid L H).left_column_indices := by
        rw [mem_left_col_mkGrid L H (src - L + 1) (by omega) hP (by omega),
          show src - L + 1 = L * (src / L - 1) + (src % L + 1) by omega,
          Nat.mul_add_mod, Nat.mod_eq_of_lt (by omega)]
        omega
      have hjbr : src - L + 1 ∉ (mkGrid L H).bottom_row_indices := by
        rw [mem_bottom_row_mkGrid L H (src - L + 1) hL2 (by omega) hP hHC]
        omega
      rw [dl_i_spec L H hL2 hL5 hH2 hHC (src - L + 1),
        if_pos ⟨by rw [htot]; omega, hjlc, hjbr⟩,
        show src - L + 1 + L - 1 = src by omega]
    · rw [if_neg hc] at hj
      exact Option.noConfusion hj

theorem c10_opposite_inverses_witness : (mkGrid 8 8).lt_i 10 = some 9 :=
  (c10_opposite_inverses 8 8 (mkGrid 8 8) rfl (by decide) 9 10).1 (by decide)

/-- C10 counterexample: for the constructed grid `new 3 6148914691236517206`
(total wraps to `2`), `dn_i 0 = some 3` but `up_i 3 = none`, so the pair
`dn`/`up` is not mutually inverse. -/
theorem c10_counterexample :
    ¬ (∀ (L H : Nat) (g : GridIndex), GridIndex.new L H = some g →
        ∀ src j, g.dn_i src = some j → g.up_i j = some src) := by
  intro h
  have hb := h 3 6148914691236517206 (mkGrid 3 6148914691236517206) rfl 0 3
    (by rfl)
  rw [show (mkGrid 3 6148914691236517206).up_i 3 = none from rfl] at hb
  exact Option.noConfusion hb
